import Mathlib

/-!
Verification development for a gesture-controlled drawing surface.

The program turns per-frame hand-landmark sets into gestures (pinch,
open palm, v-sign, two-hand zoom), drives a drawing state machine
(strokes in world space under a pan/zoom transform), a particle based
dissolve effect, and a dwell-time menu selection engine.

The embedding below follows the source files:
geometry utilities (utils/geometry.ts), the frame processing logic
(the App component: processHands, dissolveDrawing, the particle part
of renderCanvas), and the menu hit-testing effect (SciFiMenu.tsx).
Numbers are modelled as real numbers; the dwell engine, which uses
only comparisons on pixel coordinates, is modelled over the rationals
so that it stays executable.
-/

/-- A 2D point, in normalized, screen, or world coordinates. -/
@[ext]
structure Point where
  x : ℝ
  y : ℝ

/-- Euclidean distance between two points (utils/geometry.ts, distance). -/
noncomputable def distance (p1 p2 : Point) : ℝ :=
  Real.sqrt ((p2.x - p1.x) ^ 2 + (p2.y - p1.y) ^ 2)

/-- Map normalized coordinates to screen coordinates, mirroring x for the
selfie view (utils/geometry.ts, toScreen). -/
noncomputable def toScreen (x y width height : ℝ) : Point :=
  ⟨(1 - x) * width, y * height⟩

/-- Midpoint of two points (utils/geometry.ts, midPoint). -/
noncomputable def midPoint (p1 p2 : Point) : Point :=
  ⟨(p1.x + p2.x) / 2, (p1.y + p2.y) / 2⟩

/-- The gesture enumeration of types.ts (HandGesture). TWO_FINGER_POINT is
the two-hand zoom gesture of the design document. -/
inductive HandGesture where
  | UNKNOWN
  | OPEN_PALM
  | PINCH
  | V_SIGN
  | CLOSED_FIST
  | TWO_FINGER_POINT
deriving DecidableEq, Repr

/-- The landmarks of one detected hand that the program reads, by their
anatomical index in the 21-point landmark set: wrist = hand[0],
thumbTip = hand[4], indexTip = hand[8], middleTip = hand[12],
ringTip = hand[16], pinkyTip = hand[20]. -/
structure Hand where
  wrist : Point
  thumbTip : Point
  indexTip : Point
  middleTip : Point
  ringTip : Point
  pinkyTip : Point

/-- Convert all used landmarks of a hand from normalized to screen
coordinates, as processHands does before classifying. -/
noncomputable def screenHand (hand : Hand) (width height : ℝ) : Hand :=
  ⟨toScreen hand.wrist.x hand.wrist.y width height,
   toScreen hand.thumbTip.x hand.thumbTip.y width height,
   toScreen hand.indexTip.x hand.indexTip.y width height,
   toScreen hand.middleTip.x hand.middleTip.y width height,
   toScreen hand.ringTip.x hand.ringTip.y width height,
   toScreen hand.pinkyTip.x hand.pinkyTip.y width height⟩

/-- Middle finger extension test of processHands, on screen-space
landmarks: wrist-to-middle distance exceeds 0.8 times the
wrist-to-index distance. -/
def middleExtended (sh : Hand) : Prop :=
  distance sh.wrist sh.middleTip > distance sh.wrist sh.indexTip * 0.8

/-- Ring finger extension test of processHands. -/
def ringExtended (sh : Hand) : Prop :=
  distance sh.wrist sh.ringTip > distance sh.wrist sh.indexTip * 0.8

/-- Pinky finger extension test of processHands. -/
def pinkyExtended (sh : Hand) : Prop :=
  distance sh.wrist sh.pinkyTip > distance sh.wrist sh.indexTip * 0.8

open Classical in
/-- Single-hand gesture classification of processHands, applied to
screen-space landmarks, in source order: pinch, then open palm, then
v-sign, else unknown. -/
noncomputable def classifyScreen (sh : Hand) : HandGesture :=
  if distance sh.thumbTip sh.indexTip < 40 ∧ ¬ middleExtended sh then
    HandGesture.PINCH
  else if middleExtended sh ∧ ringExtended sh ∧ pinkyExtended sh ∧
      distance sh.wrist sh.indexTip > 100 then
    HandGesture.OPEN_PALM
  else if distance sh.indexTip sh.middleTip > 40 ∧ ¬ ringExtended sh ∧
      ¬ pinkyExtended sh then
    HandGesture.V_SIGN
  else
    HandGesture.UNKNOWN

/-- Single-hand classification from normalized landmarks. -/
noncomputable def classifySingleHand (hand : Hand) (width height : ℝ) : HandGesture :=
  classifyScreen (screenHand hand width height)

/-- The detected gesture of a whole frame, as computed by processHands:
two hands always give TWO_FINGER_POINT (the two-hand zoom gesture),
one hand is classified by the single hand rules, and zero hands leave
the local detected gesture at UNKNOWN. -/
noncomputable def classifyFrame (landmarks : List Hand) (width height : ℝ) : HandGesture :=
  match landmarks with
  | [] => HandGesture.UNKNOWN
  | [_, _] => HandGesture.TWO_FINGER_POINT
  | hand :: _ => classifySingleHand hand width height

/-- Concrete hand whose screen landmarks (at 1000 by 1000) satisfy the
pinch conditions: thumb and index 20 px apart, middle not extended. -/
def pinchHand : Hand :=
  ⟨⟨0.5, 0⟩, ⟨0.5, 0.18⟩, ⟨0.5, 0.2⟩, ⟨0.5, 0.1⟩, ⟨0.5, 0.1⟩, ⟨0.5, 0.1⟩⟩

/-- Concrete hand classifying as V_SIGN at 1000 by 1000. -/
def vsignHand : Hand :=
  ⟨⟨0.5, 0⟩, ⟨0.5, 0⟩, ⟨0.5, 0.5⟩, ⟨0.5, 0.45⟩, ⟨0.5, 0.1⟩, ⟨0.5, 0.1⟩⟩

/-- Concrete hand classifying as OPEN_PALM at 1000 by 1000. -/
def palmHand : Hand :=
  ⟨⟨0.5, 0⟩, ⟨0.5, 0.5⟩, ⟨0.5, 0.2⟩, ⟨0.5, 0.2⟩, ⟨0.5, 0.2⟩, ⟨0.5, 0.2⟩⟩

/-- Concrete hand classifying as UNKNOWN at 1000 by 1000. -/
def unknownHand : Hand :=
  ⟨⟨0.5, 0⟩, ⟨0.5, 0.2⟩, ⟨0.5, 0.5⟩, ⟨0.5, 0.5⟩, ⟨0.5, 0.1⟩, ⟨0.5, 0.1⟩⟩

/-- Concrete hand used only for its index tip, at normalized height 0. -/
def zoomHandA : Hand :=
  ⟨⟨0.5, 0⟩, ⟨0.5, 0⟩, ⟨0.5, 0⟩, ⟨0.5, 0⟩, ⟨0.5, 0⟩, ⟨0.5, 0⟩⟩

/-- Concrete hand used only for its index tip, at normalized height 0.2. -/
def zoomHandB : Hand :=
  ⟨⟨0.5, 0.2⟩, ⟨0.5, 0.2⟩, ⟨0.5, 0.2⟩, ⟨0.5, 0.2⟩, ⟨0.5, 0.2⟩, ⟨0.5, 0.2⟩⟩

/-- Pen or eraser tool kind (types.ts). -/
inductive Tool where
  | pen
  | eraser
deriving DecidableEq, Repr

/-- A finalized stroke (types.ts, Stroke): world-space points plus the
drawing settings captured at finalization time. -/
structure Stroke where
  points : List Point
  color : String
  size : ℝ
  type : Tool

/-- Current drawing settings (types.ts, DrawingSettings). -/
structure DrawingSettings where
  color : String
  size : ℝ
  tool : Tool

/-- A dissolve particle (types.ts, Particle), stored in screen space. -/
structure Particle where
  x : ℝ
  y : ℝ
  vx : ℝ
  vy : ℝ
  color : String
  size : ℝ
  life : ℝ
  maxLife : ℝ

/-- The pan/zoom transform state (transformRef). -/
structure Transform where
  scale : ℝ
  offsetX : ℝ
  offsetY : ℝ

/-- The mutable state of the App component that the frame loop owns:
menu flag, menu cursor, last published gesture, finalized strokes
(linesRef), the in-progress stroke (currentLineRef), particles,
drawing settings, transform, and the carried previous inter-hand
distance (prevPinchDistanceRef). -/
structure AppState where
  isMenuOpen : Bool
  menuCursor : Option Point
  currentGesture : HandGesture
  lines : List Stroke
  currentLine : List Point
  particles : List Particle
  settings : DrawingSettings
  transform : Transform
  prevPinchDistance : Option ℝ

/-- The initial state of the App component. -/
def initialState : AppState where
  isMenuOpen := false
  menuCursor := none
  currentGesture := HandGesture.UNKNOWN
  lines := []
  currentLine := []
  particles := []
  settings := { color := "#00FFFF", size := 6, tool := Tool.pen }
  transform := { scale := 1, offsetX := 0, offsetY := 0 }
  prevPinchDistance := none

/-- Screen-to-world conversion used when recording a stroke point in
processHands: subtract the offset, divide by the scale. -/
noncomputable def toWorldPoint (t : Transform) (p : Point) : Point :=
  ⟨(p.x - t.offsetX) / t.scale, (p.y - t.offsetY) / t.scale⟩

/-- World-to-screen conversion used by dissolveDrawing and by the cursor
indicator in renderCanvas: multiply by the scale, add the offset. -/
noncomputable def toScreenPoint (t : Transform) (p : Point) : Point :=
  ⟨p.x * t.scale + t.offsetX, p.y * t.scale + t.offsetY⟩

/-- Every second point of a list, by index: the points at even indices.
This is the sampling of dissolveDrawing, whose loop keeps the points
with index i such that i mod 2 is zero. -/
def everySecond {α : Type} : List α → List α
  | [] => []
  | [a] => [a]
  | a :: _ :: rest => a :: everySecond rest

/-- The sampled points that dissolveDrawing converts into particles, with
the color and size they are spawned with: every second point of each
finalized stroke, then every second point of the current line with the
current settings. -/
def dissolvePool (s : AppState) : List (Point × String × ℝ) :=
  (s.lines.map fun l => (everySecond l.points).map fun p => (p, l.color, l.size)).flatten
    ++ (everySecond s.currentLine).map fun p => (p, s.settings.color, s.settings.size)

/-- One spawned particle of dissolveDrawing. The source draws three
random numbers per particle, in order: horizontal velocity, vertical
velocity, size. The random stream rho is indexed by draw count, so
particle number i uses draws 3i, 3i+1 and 3i+2; each draw lies in
the interval from 0 inclusive to 1 exclusive. -/
noncomputable def mkParticle (t : Transform) (rho : ℕ → ℝ) (i : ℕ)
    (p : Point) (color : String) (size : ℝ) : Particle where
  x := p.x * t.scale + t.offsetX
  y := p.y * t.scale + t.offsetY
  vx := (rho (3 * i) - 0.5) * 2
  vy := rho (3 * i + 1) * 2 + 1
  color := color
  size := rho (3 * i + 2) * size + 1
  life := 1
  maxLife := 1

/-- Spawn particles from the sampled pool in order, numbering them from
the given start index. -/
noncomputable def spawnParticles (t : Transform) (rho : ℕ → ℝ) :
    ℕ → List (Point × String × ℝ) → List Particle
  | _, [] => []
  | i, q :: rest => mkParticle t rho i q.1 q.2.1 q.2.2 :: spawnParticles t rho (i + 1) rest

open Classical in
/-- The dissolveDrawing handler: if there is nothing to dissolve, return
unchanged; otherwise convert the sampled points of all finalized
strokes and of the current line into particles (reconstructing screen
positions through the current transform), append them to the particle
list, and clear all strokes. -/
noncomputable def dissolveDrawing (rho : ℕ → ℝ) (s : AppState) : AppState :=
  if s.lines = [] ∧ s.currentLine = [] then s
  else
    { s with
      particles := s.particles ++ spawnParticles s.transform rho 0 (dissolvePool s)
      lines := []
      currentLine := [] }

open Classical in
/-- The single-hand part of processHands (the branch taken when the
landmark list has one entry, or more than two, in which case only the
first hand is read). It clears the previous inter-hand distance,
classifies the first hand, publishes the gesture, opens the menu on
OPEN_PALM when it was closed, then branches on the menu flag read from
the render closure (so the frame that opens the menu still runs the
drawing branch with the old, closed value): while the menu is open the
index tip is published as the menu cursor and nothing else happens
(the fist check in the source is commented out); otherwise a PINCH
appends the world-space pinch midpoint to the current line, and any
other gesture finalizes a non-empty current line into a stroke with
the current settings. Finally, V_SIGN fires the dissolve regardless of
the menu flag, since that check sits after the if/else chain. -/
noncomputable def processSingleHand (rho : ℕ → ℝ) (hand : Hand)
    (width height : ℝ) (s : AppState) : AppState :=
  let sh := screenHand hand width height
  let g := classifyScreen sh
  let menuNow := s.isMenuOpen
  let s1 : AppState :=
    { s with
      prevPinchDistance := none
      currentGesture := g
      isMenuOpen := if g = HandGesture.OPEN_PALM ∧ menuNow = false then true else menuNow
      menuCursor := if menuNow then some sh.indexTip else none }
  let s2 : AppState :=
    if menuNow then s1
    else if g = HandGesture.PINCH then
      { s1 with
        currentLine := s1.currentLine ++
          [toWorldPoint s1.transform (midPoint sh.thumbTip sh.indexTip)] }
    else if s1.currentLine ≠ [] then
      { s1 with
        lines := s1.lines ++
          [{ points := s1.currentLine, color := s1.settings.color,
             size := s1.settings.size, type := s1.settings.tool }]
        currentLine := [] }
    else s1
  if g = HandGesture.V_SIGN then dissolveDrawing rho s2 else s2

/-- The processHands logic handler, one invocation per frame. The menu
cursor is reset at the top of every call; everything else runs only
when at least one hand is present, so a zero-hand frame changes no
other state. Exactly two hands take the zoom branch, which computes
the index-to-index screen distance, applies a clamped zoom delta when
a previous distance is carried, and stores the new distance; it never
touches strokes, gesture state or the menu. Any other nonzero hand
count takes the single-hand branch on the first hand. -/
noncomputable def processHands (rho : ℕ → ℝ) (landmarks : List Hand)
    (width height : ℝ) (s : AppState) : AppState :=
  match landmarks with
  | [] => { s with menuCursor := none }
  | [h1, h2] =>
    let hand1Index := toScreen h1.indexTip.x h1.indexTip.y width height
    let hand2Index := toScreen h2.indexTip.x h2.indexTip.y width height
    let dist := distance hand1Index hand2Index
    let newScale :=
      match s.prevPinchDistance with
      | some prev => max 0.5 (min 3 (s.transform.scale + (dist - prev) * 0.005))
      | none => s.transform.scale
    { s with
      menuCursor := none
      transform := { s.transform with scale := newScale }
      prevPinchDistance := some dist }
  | hand :: _ => processSingleHand rho hand width height s

/-- One particle simulation update of renderCanvas, in source order: the
position advances by the velocity, life decreases by 0.01, then
gravity adds 0.05 to the vertical velocity. -/
def tickParticle (p : Particle) : Particle :=
  { p with x := p.x + p.vx, y := p.y + p.vy, life := p.life - 0.01, vy := p.vy + 0.05 }

open Classical in
/-- The liveness test of the particle filter in renderCanvas: a particle
stays when its life is above zero. -/
noncomputable def particleAlive (p : Particle) : Bool :=
  decide (p.life > 0)

/-- The particle pass of renderCanvas: every particle is advanced one
tick, then dead particles (life not above zero) are removed. -/
noncomputable def tickParticles (ps : List Particle) : List Particle :=
  (ps.map tickParticle).filter particleAlive

/-- A settings update emitted by the menu (partial DrawingSettings). -/
structure SettingsUpdate where
  color : Option String
  size : Option ℝ
  tool : Option Tool

/-- Merge a partial settings update, as handleMenuSelect does with the
object spread. -/
def applyUpdate (st : DrawingSettings) (u : SettingsUpdate) : DrawingSettings where
  color := u.color.getD st.color
  size := u.size.getD st.size
  tool := u.tool.getD st.tool

/-- One input to the frame loop: either a processed video frame (with
its landmark sets, frame dimensions and the random stream consumed by
a possible dissolve), or one of the two cross-boundary menu events,
the explicit close action and a settings selection. -/
inductive FrameEvent where
  | frame (rho : ℕ → ℝ) (landmarks : List Hand) (width height : ℝ)
  | menuClose
  | menuSelect (u : SettingsUpdate)

/-- Apply one frame-loop input: a video frame runs processHands and then
the particle pass of renderCanvas; the menu close event clears the
menu flag; a menu selection merges the settings update. -/
noncomputable def stepEvent (s : AppState) : FrameEvent → AppState
  | FrameEvent.frame rho lms width height =>
    let s1 := processHands rho lms width height s
    { s1 with particles := tickParticles s1.particles }
  | FrameEvent.menuClose => { s with isMenuOpen := false }
  | FrameEvent.menuSelect u => { s with settings := applyUpdate s.settings u }

/-- Run the frame loop from the initial state. -/
noncomputable def runEvents (evs : List FrameEvent) : AppState :=
  evs.foldl stepEvent initialState

/-- A 2D point with rational coordinates, for the dwell engine of the
menu, which only ever compares pixel coordinates. -/
structure QPoint where
  x : ℚ
  y : ℚ
deriving DecidableEq, Repr

/-- A registered hit-testable menu element: its data-type and data-value
attributes and its bounding rectangle. -/
structure MenuRegion where
  ty : String
  value : String
  left : ℚ
  right : ℚ
  top : ℚ
  bottom : ℚ
deriving DecidableEq, Repr

/-- The bounding-rectangle test of the SciFiMenu hit-testing effect:
left and right bounds on x, top and bottom bounds on y, all inclusive. -/
def inRegion (c : QPoint) (r : MenuRegion) : Bool :=
  decide (r.left ≤ c.x ∧ c.x ≤ r.right ∧ r.top ≤ c.y ∧ c.y ≤ r.bottom)

/-- The hover identifier of a region, as built in the source from the
data-type and data-value attributes. -/
def regionId (r : MenuRegion) : String :=
  r.ty ++ "-" ++ r.value

/-- The dwell state of SciFiMenu: the tracked hovered identifier
(hoveredElementRef) and the pending dwell timer (hoverTimerRef),
modelled as the selection it would fire and its absolute deadline in
milliseconds. A fired or cancelled timer is none. -/
structure DwellEngine where
  hovered : Option String
  timer : Option (String × String × ℕ)
deriving DecidableEq, Repr

/-- One selection event: the data-type, the data-value and the absolute
time at which the timer fired. -/
abbrev Selection := String × String × ℕ

/-- The per-element body of the forEach in the hit-testing effect: an
element containing the cursor marks the frame as hovering, and if its
identifier differs from the tracked one, the tracked identifier moves
to it, any pending timer is cancelled and a fresh 800 ms timer starts. -/
def hoverStep (now : ℕ) (c : QPoint) (acc : Bool × DwellEngine) (r : MenuRegion) :
    Bool × DwellEngine :=
  if inRegion c r then
    if acc.2.hovered = some (regionId r) then (true, acc.2)
    else (true, { hovered := some (regionId r), timer := some (r.ty, r.value, now + 800) })
  else acc

/-- One run of the SciFiMenu hit-testing effect. When the menu is closed
or there is no cursor, the effect returns early and the dwell state is
left untouched (in particular a pending timer is not cancelled).
Otherwise every registered element is visited; if none contains the
cursor, the tracked identifier is cleared and any pending timer is
cancelled. -/
def hitTestFrame (regions : List MenuRegion) (isOpen : Bool) (cursor : Option QPoint)
    (now : ℕ) (e : DwellEngine) : DwellEngine :=
  if isOpen = false then e
  else
    match cursor with
    | none => e
    | some c =>
      let res := regions.foldl (hoverStep now c) (false, e)
      if res.1 then res.2 else { hovered := none, timer := none }

/-- Fire the pending timer if its deadline has been reached: the
selection event carrying the region type and value is emitted with the
deadline as its fire time and the timer handle is spent. -/
def fireDue (now : ℕ) (e : DwellEngine) : DwellEngine × List Selection :=
  match e.timer with
  | some (ty, v, dl) =>
    if dl ≤ now then ({ e with timer := none }, [(ty, v, dl)]) else (e, [])
  | none => (e, [])

/-- One timestamped input to the dwell engine: the time in milliseconds,
whether the menu is open, and the cursor position if one is published. -/
structure DwellInput where
  t : ℕ
  isOpen : Bool
  cursor : Option QPoint

/-- Process one timestamped input: the timer fires first if its deadline
lies at or before the input time, then the hit-testing effect runs. -/
def dwellStep (regions : List MenuRegion) (acc : DwellEngine × List Selection)
    (inp : DwellInput) : DwellEngine × List Selection :=
  let fired := fireDue inp.t acc.1
  (hitTestFrame regions inp.isOpen inp.cursor inp.t fired.1, acc.2 ++ fired.2)

/-- Run the dwell engine over a time-ordered list of inputs, then let any
still pending timer fire if its deadline lies at or before the given
end time. Returns the final dwell state and all selection events. -/
def dwellRun (regions : List MenuRegion) (inputs : List DwellInput)
    (endTime : ℕ) : DwellEngine × List Selection :=
  let res := inputs.foldl (dwellStep regions) (⟨none, none⟩, [])
  let fin := fireDue endTime res.1
  (fin.1, res.2 ++ fin.2)

/-- The constant random stream with value 0, used for concrete runs. -/
def zeroRng : ℕ → ℝ := fun _ => 0


/-- A three-point stroke with the default settings, used in concrete
runs of the dissolve. -/
def cexStroke : Stroke :=
  { points := [⟨0, 0⟩, ⟨1, 0⟩, ⟨2, 0⟩], color := "#00FFFF", size := 6, type := Tool.pen }

/-- A state holding two finalized three-point strokes, used to exercise
the dissolve sampling. -/
def cexState : AppState :=
  { initialState with lines := [cexStroke, cexStroke] }

/-- A freshly spawned particle with life 1, used in concrete runs. -/
def testParticle : Particle :=
  { x := 0, y := 0, vx := 0, vy := 0, color := "#00FFFF", size := 1, life := 1, maxLife := 1 }

lemma distance_same_x (a b c : ℝ) : distance ⟨a, b⟩ ⟨a, c⟩ = |c - b| := by
  simp [distance, Real.sqrt_sq_eq_abs]

lemma screenHand_pinchHand :
    screenHand pinchHand 1000 1000 =
      ⟨⟨500, 0⟩, ⟨500, 180⟩, ⟨500, 200⟩, ⟨500, 100⟩, ⟨500, 100⟩, ⟨500, 100⟩⟩ := by
  simp only [screenHand, pinchHand, toScreen]
  norm_num

lemma screenHand_vsignHand :
    screenHand vsignHand 1000 1000 =
      ⟨⟨500, 0⟩, ⟨500, 0⟩, ⟨500, 500⟩, ⟨500, 450⟩, ⟨500, 100⟩, ⟨500, 100⟩⟩ := by
  simp only [screenHand, vsignHand, toScreen]
  norm_num

lemma screenHand_palmHand :
    screenHand palmHand 1000 1000 =
      ⟨⟨500, 0⟩, ⟨500, 500⟩, ⟨500, 200⟩, ⟨500, 200⟩, ⟨500, 200⟩, ⟨500, 200⟩⟩ := by
  simp only [screenHand, palmHand, toScreen]
  norm_num

lemma screenHand_unknownHand :
    screenHand unknownHand 1000 1000 =
      ⟨⟨500, 0⟩, ⟨500, 200⟩, ⟨500, 500⟩, ⟨500, 500⟩, ⟨500, 100⟩, ⟨500, 100⟩⟩ := by
  simp only [screenHand, unknownHand, toScreen]
  norm_num

lemma classify_pinchHand :
    classifySingleHand pinchHand 1000 1000 = HandGesture.PINCH := by
  rw [classifySingleHand, screenHand_pinchHand, classifyScreen, if_pos]
  refine ⟨?_, ?_⟩
  · show distance ⟨500, 180⟩ ⟨500, 200⟩ < 40
    rw [distance_same_x]; norm_num
  · show ¬ middleExtended _
    simp only [middleExtended]
    simp only [distance_same_x]
    norm_num

lemma classify_vsignHand :
    classifySingleHand vsignHand 1000 1000 = HandGesture.V_SIGN := by
  rw [classifySingleHand, screenHand_vsignHand, classifyScreen]
  rw [if_neg, if_neg, if_pos]
  · refine ⟨?_, ?_, ?_⟩
    · show distance ⟨500, 500⟩ ⟨500, 450⟩ > 40
      rw [distance_same_x]; norm_num
    · simp only [ringExtended]
      simp only [distance_same_x]; norm_num
    · simp only [pinkyExtended]
      simp only [distance_same_x]; norm_num
  · rintro ⟨-, h, -⟩
    simp only [ringExtended] at h
    simp only [distance_same_x] at h
    norm_num at h
  · rintro ⟨h, -⟩
    rw [show distance ⟨500, 0⟩ ⟨500, 500⟩ = |(500 : ℝ) - 0| from distance_same_x 500 0 500] at h
    norm_num at h

lemma classify_palmHand :
    classifySingleHand palmHand 1000 1000 = HandGesture.OPEN_PALM := by
  rw [classifySingleHand, screenHand_palmHand, classifyScreen]
  rw [if_neg, if_pos]
  · refine ⟨?_, ?_, ?_, ?_⟩
    · simp only [middleExtended]
      simp only [distance_same_x]; norm_num
    · simp only [ringExtended]
      simp only [distance_same_x]; norm_num
    · simp only [pinkyExtended]
      simp only [distance_same_x]; norm_num
    · show distance ⟨500, 0⟩ ⟨500, 200⟩ > 100
      rw [distance_same_x]; norm_num
  · rintro ⟨h, -⟩
    rw [show distance ⟨500, 500⟩ ⟨500, 200⟩ = |(200 : ℝ) - 500| from distance_same_x 500 500 200] at h
    norm_num at h

lemma classify_unknownHand :
    classifySingleHand unknownHand 1000 1000 = HandGesture.UNKNOWN := by
  rw [classifySingleHand, screenHand_unknownHand, classifyScreen]
  rw [if_neg, if_neg, if_neg]
  · rintro ⟨h, -⟩
    rw [show distance ⟨500, 500⟩ ⟨500, 500⟩ = |(500 : ℝ) - 500| from distance_same_x 500 500 500] at h
    norm_num at h
  · rintro ⟨-, h, -⟩
    simp only [ringExtended] at h
    simp only [distance_same_x] at h
    norm_num at h
  · rintro ⟨h, -⟩
    rw [show distance ⟨500, 200⟩ ⟨500, 500⟩ = |(500 : ℝ) - 200| from distance_same_x 500 200 500] at h
    norm_num at h

lemma dissolve_isMenuOpen (rho : ℕ → ℝ) (s : AppState) :
    (dissolveDrawing rho s).isMenuOpen = s.isMenuOpen := by
  rw [dissolveDrawing]; split <;> rfl

lemma dissolve_transform (rho : ℕ → ℝ) (s : AppState) :
    (dissolveDrawing rho s).transform = s.transform := by
  rw [dissolveDrawing]; split <;> rfl

lemma dissolve_settings (rho : ℕ → ℝ) (s : AppState) :
    (dissolveDrawing rho s).settings = s.settings := by
  rw [dissolveDrawing]; split <;> rfl

lemma dissolve_prevPinchDistance (rho : ℕ → ℝ) (s : AppState) :
    (dissolveDrawing rho s).prevPinchDistance = s.prevPinchDistance := by
  rw [dissolveDrawing]; split <;> rfl

lemma processHands_nil (rho : ℕ → ℝ) (width height : ℝ) (s : AppState) :
    processHands rho [] width height s = { s with menuCursor := none } := rfl

lemma processSingleHand_isMenuOpen (rho : ℕ → ℝ) (hand : Hand) (width height : ℝ)
    (s : AppState) :
    (processSingleHand rho hand width height s).isMenuOpen =
      (if classifyScreen (screenHand hand width height) = HandGesture.OPEN_PALM ∧
          s.isMenuOpen = false then true else s.isMenuOpen) := by
  simp only [processSingleHand]
  split <;> try simp only [dissolve_isMenuOpen]
  all_goals repeat' split
  all_goals rfl

lemma processSingleHand_transform (rho : ℕ → ℝ) (hand : Hand) (width height : ℝ)
    (s : AppState) :
    (processSingleHand rho hand width height s).transform = s.transform := by
  simp only [processSingleHand]
  split <;> try simp only [dissolve_transform]
  all_goals repeat' split
  all_goals rfl

lemma processSingleHand_settings (rho : ℕ → ℝ) (hand : Hand) (width height : ℝ)
    (s : AppState) :
    (processSingleHand rho hand width height s).settings = s.settings := by
  simp only [processSingleHand]
  split <;> try simp only [dissolve_settings]
  all_goals repeat' split
  all_goals rfl

lemma processSingleHand_prevPinchDistance (rho : ℕ → ℝ) (hand : Hand) (width height : ℝ)
    (s : AppState) :
    (processSingleHand rho hand width height s).prevPinchDistance = none := by
  simp only [processSingleHand]
  split <;> try simp only [dissolve_prevPinchDistance]
  all_goals repeat' split
  all_goals rfl

lemma processSingleHand_pinch (rho : ℕ → ℝ) (hand : Hand) (width height : ℝ)
    (s : AppState) (hmenu : s.isMenuOpen = false)
    (hg : classifyScreen (screenHand hand width height) = HandGesture.PINCH) :
    processSingleHand rho hand width height s =
      { s with
        prevPinchDistance := none
        currentGesture := HandGesture.PINCH
        menuCursor := none
        currentLine := s.currentLine ++
          [toWorldPoint s.transform
            (midPoint (screenHand hand width height).thumbTip
              (screenHand hand width height).indexTip)] } := by
  simp only [processSingleHand, hg, hmenu]
  simp

open Classical in
lemma processSingleHand_finalize (rho : ℕ → ℝ) (hand : Hand) (width height : ℝ)
    (s : AppState) (hmenu : s.isMenuOpen = false)
    (hgp : classifyScreen (screenHand hand width height) ≠ HandGesture.PINCH)
    (hgv : classifyScreen (screenHand hand width height) ≠ HandGesture.V_SIGN)
    (hne : s.currentLine ≠ []) :
    processSingleHand rho hand width height s =
      { s with
        prevPinchDistance := none
        currentGesture := classifyScreen (screenHand hand width height)
        isMenuOpen := if classifyScreen (screenHand hand width height) =
            HandGesture.OPEN_PALM then true else false
        menuCursor := none
        lines := s.lines ++
          [{ points := s.currentLine, color := s.settings.color,
             size := s.settings.size, type := s.settings.tool }]
        currentLine := [] } := by
  simp only [processSingleHand, hmenu]
  simp [hgp, hgv, hne]

open Classical in
lemma processSingleHand_vsign (rho : ℕ → ℝ) (hand : Hand) (width height : ℝ)
    (s : AppState) (hmenu : s.isMenuOpen = false)
    (hg : classifyScreen (screenHand hand width height) = HandGesture.V_SIGN) :
    processSingleHand rho hand width height s =
      dissolveDrawing rho
        (if s.currentLine ≠ [] then
          { s with
            prevPinchDistance := none
            currentGesture := HandGesture.V_SIGN
            menuCursor := none
            lines := s.lines ++
              [{ points := s.currentLine, color := s.settings.color,
                 size := s.settings.size, type := s.settings.tool }]
            currentLine := [] }
         else
          { s with
            prevPinchDistance := none
            currentGesture := HandGesture.V_SIGN
            menuCursor := none }) := by
  simp only [processSingleHand, hg, hmenu]
  simp

lemma processHands_two (rho : ℕ → ℝ) (h1 h2 : Hand) (width height : ℝ) (s : AppState) :
    processHands rho [h1, h2] width height s =
      { s with
        menuCursor := none
        transform := { s.transform with scale :=
          match s.prevPinchDistance with
          | some prev => max 0.5 (min 3 (s.transform.scale +
              (distance (toScreen h1.indexTip.x h1.indexTip.y width height)
                        (toScreen h2.indexTip.x h2.indexTip.y width height) - prev) * 0.005))
          | none => s.transform.scale }
        prevPinchDistance := some (distance
          (toScreen h1.indexTip.x h1.indexTip.y width height)
          (toScreen h2.indexTip.x h2.indexTip.y width height)) } := rfl

lemma processHands_scale_bounds (rho : ℕ → ℝ) (lms : List Hand) (width height : ℝ)
    (s : AppState) (h1 : 0.5 ≤ s.transform.scale) (h2 : s.transform.scale ≤ 3) :
    0.5 ≤ (processHands rho lms width height s).transform.scale ∧
      (processHands rho lms width height s).transform.scale ≤ 3 := by
  match lms with
  | [] => exact ⟨h1, h2⟩
  | [a, b] =>
    rw [processHands_two]
    cases hp : s.prevPinchDistance with
    | none => simpa [hp] using ⟨h1, h2⟩
    | some prev =>
      simp only [hp]
      refine ⟨le_max_left _ _, max_le (by norm_num) (min_le_left _ _)⟩
  | a :: b :: c :: rest =>
    rw [show processHands rho (a :: b :: c :: rest) width height s =
      processSingleHand rho a width height s from rfl, processSingleHand_transform]
    exact ⟨h1, h2⟩
  | [a] =>
    rw [show processHands rho [a] width height s =
      processSingleHand rho a width height s from rfl, processSingleHand_transform]
    exact ⟨h1, h2⟩

lemma stepEvent_scale_bounds (s : AppState) (e : FrameEvent)
    (h1 : 0.5 ≤ s.transform.scale) (h2 : s.transform.scale ≤ 3) :
    0.5 ≤ (stepEvent s e).transform.scale ∧ (stepEvent s e).transform.scale ≤ 3 := by
  cases e with
  | frame rho lms width height => exact processHands_scale_bounds rho lms width height s h1 h2
  | menuClose => exact ⟨h1, h2⟩
  | menuSelect u => exact ⟨h1, h2⟩

lemma foldl_scale_bounds (evs : List FrameEvent) :
    ∀ s : AppState, 0.5 ≤ s.transform.scale → s.transform.scale ≤ 3 →
      0.5 ≤ (evs.foldl stepEvent s).transform.scale ∧
        (evs.foldl stepEvent s).transform.scale ≤ 3 := by
  induction evs with
  | nil => exact fun s h1 h2 => ⟨h1, h2⟩
  | cons e evs ih =>
    intro s h1 h2
    have h := stepEvent_scale_bounds s e h1 h2
    exact ih _ h.1 h.2

lemma runEvents_scale_bounds (evs : List FrameEvent) :
    0.5 ≤ (runEvents evs).transform.scale ∧ (runEvents evs).transform.scale ≤ 3 :=
  foldl_scale_bounds evs initialState (by norm_num [initialState]) (by norm_num [initialState])

/-- C5: for every single-hand landmark set whose thumb-to-index screen
distance is below 40 px and whose middle finger is not extended, the
classification is PINCH, whatever the other finger poses are: the
pinch rule is tested first, so it dominates open palm and v-sign. -/
theorem pinch_precedence (hand : Hand) (width height : ℝ)
    (hdist : distance (screenHand hand width height).thumbTip
      (screenHand hand width height).indexTip < 40)
    (hmid : ¬ middleExtended (screenHand hand width height)) :
    classifySingleHand hand width height = HandGesture.PINCH := by
  rw [classifySingleHand, classifyScreen, if_pos]
  exact ⟨hdist, hmid⟩

theorem pinch_precedence_witness :
    classifySingleHand pinchHand 1000 1000 = HandGesture.PINCH := by
  apply pinch_precedence
  · rw [screenHand_pinchHand]
    show distance ⟨500, 180⟩ ⟨500, 200⟩ < 40
    rw [distance_same_x]; norm_num
  · rw [screenHand_pinchHand]
    show ¬ middleExtended ⟨⟨500, 0⟩, ⟨500, 180⟩, ⟨500, 200⟩, ⟨500, 100⟩, ⟨500, 100⟩, ⟨500, 100⟩⟩
    simp only [middleExtended, distance_same_x]
    norm_num

/-- C7: the view transform scale starts at 1, and after any sequence of
frame-loop inputs it lies between 0.5 and 3, because every write to
the scale is clamped into that range. -/
theorem scale_always_clamped :
    initialState.transform.scale = 1 ∧
    ∀ evs : List FrameEvent,
      0.5 ≤ (runEvents evs).transform.scale ∧ (runEvents evs).transform.scale ≤ 3 :=
  ⟨rfl, runEvents_scale_bounds⟩

/-- C6: a frame with exactly two hands always classifies as the two-hand
zoom gesture (TWO_FINGER_POINT), regardless of finger poses, and when
a previous inter-hand distance is carried the scale becomes the old
scale plus 0.005 times the change of the index-to-index screen
distance, clamped to the interval from 0.5 to 3; the new distance is
stored for the next frame. -/
theorem two_hand_zoom_rule (rho : ℕ → ℝ) (h1 h2 : Hand) (width height : ℝ)
    (s : AppState) (prev : ℝ) (hprev : s.prevPinchDistance = some prev) :
    classifyFrame [h1, h2] width height = HandGesture.TWO_FINGER_POINT ∧
    (processHands rho [h1, h2] width height s).transform.scale =
      max 0.5 (min 3 (s.transform.scale +
        (distance (toScreen h1.indexTip.x h1.indexTip.y width height)
                  (toScreen h2.indexTip.x h2.indexTip.y width height) - prev) * 0.005)) ∧
    (processHands rho [h1, h2] width height s).prevPinchDistance =
      some (distance (toScreen h1.indexTip.x h1.indexTip.y width height)
                     (toScreen h2.indexTip.x h2.indexTip.y width height)) := by
  refine ⟨rfl, ?_, ?_⟩ <;> (rw [processHands_two]; try simp [hprev])

theorem two_hand_zoom_rule_witness :
    classifyFrame [zoomHandA, zoomHandB] 1000 1000 = HandGesture.TWO_FINGER_POINT ∧
    (processHands zeroRng [zoomHandA, zoomHandB] 1000 1000
        { initialState with prevPinchDistance := some 100 }).transform.scale =
      max 0.5 (min 3
        (({ initialState with prevPinchDistance := some 100 } : AppState).transform.scale +
          (distance (toScreen zoomHandA.indexTip.x zoomHandA.indexTip.y 1000 1000)
                    (toScreen zoomHandB.indexTip.x zoomHandB.indexTip.y 1000 1000) - 100) * 0.005)) ∧
    (processHands zeroRng [zoomHandA, zoomHandB] 1000 1000
        { initialState with prevPinchDistance := some 100 }).prevPinchDistance =
      some (distance (toScreen zoomHandA.indexTip.x zoomHandA.indexTip.y 1000 1000)
                     (toScreen zoomHandB.indexTip.x zoomHandB.indexTip.y 1000 1000)) :=
  two_hand_zoom_rule zeroRng zoomHandA zoomHandB 1000 1000
    { initialState with prevPinchDistance := some 100 } 100 rfl

/-- C8: an OPEN_PALM frame from a closed-menu state opens the menu; once
the menu is open, no frame-loop input other than the explicit external
close action ever closes it (in particular further OPEN_PALM frames
leave it open), and the external close action closes it. -/
theorem menu_open_latched :
    (∀ (rho : ℕ → ℝ) (s : AppState) (hand : Hand) (width height : ℝ),
        s.isMenuOpen = false →
        classifySingleHand hand width height = HandGesture.OPEN_PALM →
        (stepEvent s (FrameEvent.frame rho [hand] width height)).isMenuOpen = true) ∧
    (∀ (s : AppState) (e : FrameEvent), s.isMenuOpen = true →
        e ≠ FrameEvent.menuClose → (stepEvent s e).isMenuOpen = true) ∧
    (∀ s : AppState, (stepEvent s FrameEvent.menuClose).isMenuOpen = false) := by
  refine ⟨?_, ?_, fun s => rfl⟩
  · intro rho s hand width height hmenu hg
    rw [show (stepEvent s (FrameEvent.frame rho [hand] width height)).isMenuOpen =
      (processSingleHand rho hand width height s).isMenuOpen from rfl]
    rw [processSingleHand_isMenuOpen]
    rw [classifySingleHand] at hg
    simp [hg, hmenu]
  · intro s e hmenu hne
    cases e with
    | frame rho lms width height =>
      match lms with
      | [] => exact hmenu
      | [a, b] => exact hmenu
      | [a] =>
        rw [show (stepEvent s (FrameEvent.frame rho [a] width height)).isMenuOpen =
          (processSingleHand rho a width height s).isMenuOpen from rfl]
        rw [processSingleHand_isMenuOpen]
        simp [hmenu]
      | a :: b :: c :: rest =>
        rw [show (stepEvent s (FrameEvent.frame rho (a :: b :: c :: rest) width height)).isMenuOpen =
          (processSingleHand rho a width height s).isMenuOpen from rfl]
        rw [processSingleHand_isMenuOpen]
        simp [hmenu]
    | menuClose => exact absurd rfl hne
    | menuSelect u => exact hmenu

theorem menu_open_latched_witness :
    (stepEvent initialState (FrameEvent.frame zeroRng [palmHand] 1000 1000)).isMenuOpen = true ∧
    (stepEvent { initialState with isMenuOpen := true }
        (FrameEvent.frame zeroRng [palmHand] 1000 1000)).isMenuOpen = true ∧
    (stepEvent { initialState with isMenuOpen := true } FrameEvent.menuClose).isMenuOpen = false :=
  ⟨menu_open_latched.1 zeroRng initialState palmHand 1000 1000 rfl classify_palmHand,
   menu_open_latched.2.1 { initialState with isMenuOpen := true }
     (FrameEvent.frame zeroRng [palmHand] 1000 1000) rfl
     (fun h => FrameEvent.noConfusion h),
   menu_open_latched.2.2 { initialState with isMenuOpen := true }⟩

lemma classifyScreen_pinchHand :
    classifyScreen (screenHand pinchHand 1000 1000) = HandGesture.PINCH :=
  classify_pinchHand

lemma classifyScreen_vsignHand :
    classifyScreen (screenHand vsignHand 1000 1000) = HandGesture.V_SIGN :=
  classify_vsignHand

/-- C2 counterexample: a two-hand frame stores an inter-hand distance;
a following zero-hands frame does not clear it, because the whole
processing body is guarded by a nonzero hand count. -/
theorem zoom_memory_survives_zero_hands :
    (processHands zeroRng [] 1000 1000
      (processHands zeroRng [zoomHandA, zoomHandB] 1000 1000 initialState)).prevPinchDistance ≠
      none := by
  rw [processHands_nil, processHands_two]
  simp

/-- C2 (amended): the carried previous inter-hand distance is cleared on
every frame with exactly one hand (or more than two), so re-entry to
two hands after a one-hand gap applies no zoom delta on its first
frame, which only stores the new distance; zero-hand frames, however,
leave the carried distance in place. -/
theorem zoom_memory_amended (rho : ℕ → ℝ) (width height : ℝ) (s : AppState) :
    (∀ hand : Hand, (processHands rho [hand] width height s).prevPinchDistance = none) ∧
    (∀ h1 h2 : Hand, s.prevPinchDistance = none →
      (processHands rho [h1, h2] width height s).transform.scale = s.transform.scale ∧
      (processHands rho [h1, h2] width height s).prevPinchDistance =
        some (distance (toScreen h1.indexTip.x h1.indexTip.y width height)
                       (toScreen h2.indexTip.x h2.indexTip.y width height))) := by
  constructor
  · intro hand
    exact processSingleHand_prevPinchDistance rho hand width height s
  · intro h1 h2 hprev
    rw [processHands_two]
    exact ⟨by simp [hprev], by simp⟩

theorem zoom_memory_amended_witness :
    (processHands zeroRng [pinchHand] 1000 1000 initialState).prevPinchDistance = none ∧
    (processHands zeroRng [zoomHandA, zoomHandB] 1000 1000 initialState).transform.scale =
      initialState.transform.scale :=
  ⟨(zoom_memory_amended zeroRng 1000 1000 initialState).1 pinchHand,
   ((zoom_memory_amended zeroRng 1000 1000 initialState).2 zoomHandA zoomHandB rfl).1⟩

/-- C4 counterexample: a pinch frame leaves a one-point active stroke;
the following zero-hands frame, which the design text says finalizes
it, leaves the active stroke in place and the stroke list empty. -/
theorem active_stroke_survives_zero_hands :
    (processHands zeroRng [] 1000 1000
        (processHands zeroRng [pinchHand] 1000 1000 initialState)).currentLine ≠ [] ∧
    (processHands zeroRng [] 1000 1000
        (processHands zeroRng [pinchHand] 1000 1000 initialState)).lines = [] := by
  rw [show processHands zeroRng [pinchHand] 1000 1000 initialState =
      processSingleHand zeroRng pinchHand 1000 1000 initialState from rfl,
    processSingleHand_pinch zeroRng pinchHand 1000 1000 initialState rfl classifyScreen_pinchHand,
    processHands_nil]
  constructor
  · simp
  · rfl

/-- C4 (amended): while the menu is closed, a PINCH frame appends the
pinch midpoint, converted to world space through the current
transform, to the active stroke and leaves the stroke list unchanged;
a single-hand frame with any gesture other than PINCH (except V_SIGN,
whose dissolve clears everything the same frame) finalizes a non-empty
active stroke into a stroke carrying the current settings, appends it
to the stroke list and clears the active stroke; but zero-hand frames
and two-hand frames touch neither the active stroke nor the stroke
list, so no finalization happens when the hands disappear. -/
theorem drawing_rules_amended (rho : ℕ → ℝ) (width height : ℝ) (s : AppState) :
    (∀ hand : Hand, s.isMenuOpen = false →
      classifySingleHand hand width height = HandGesture.PINCH →
      (processHands rho [hand] width height s).currentLine =
        s.currentLine ++ [toWorldPoint s.transform
          (midPoint (screenHand hand width height).thumbTip
            (screenHand hand width height).indexTip)] ∧
      (processHands rho [hand] width height s).lines = s.lines) ∧
    (∀ hand : Hand, s.isMenuOpen = false →
      classifySingleHand hand width height ≠ HandGesture.PINCH →
      classifySingleHand hand width height ≠ HandGesture.V_SIGN →
      s.currentLine ≠ [] →
      (processHands rho [hand] width height s).lines =
        s.lines ++ [{ points := s.currentLine, color := s.settings.color,
                      size := s.settings.size, type := s.settings.tool }] ∧
      (processHands rho [hand] width height s).currentLine = []) ∧
    ((processHands rho [] width height s).currentLine = s.currentLine ∧
     (processHands rho [] width height s).lines = s.lines) ∧
    (∀ h1 h2 : Hand,
      (processHands rho [h1, h2] width height s).currentLine = s.currentLine ∧
      (processHands rho [h1, h2] width height s).lines = s.lines) := by
  refine ⟨?_, ?_, ⟨rfl, rfl⟩, fun h1 h2 => ⟨rfl, rfl⟩⟩
  · intro hand hmenu hg
    rw [classifySingleHand] at hg
    rw [show processHands rho [hand] width height s =
        processSingleHand rho hand width height s from rfl,
      processSingleHand_pinch rho hand width height s hmenu hg]
    exact ⟨rfl, rfl⟩
  · intro hand hmenu hgp hgv hne
    rw [classifySingleHand] at hgp hgv
    rw [show processHands rho [hand] width height s =
        processSingleHand rho hand width height s from rfl,
      processSingleHand_finalize rho hand width height s hmenu hgp hgv hne]
    exact ⟨rfl, rfl⟩

theorem drawing_rules_amended_witness :
    (processHands zeroRng [pinchHand] 1000 1000 initialState).currentLine =
      [toWorldPoint initialState.transform
        (midPoint (screenHand pinchHand 1000 1000).thumbTip
          (screenHand pinchHand 1000 1000).indexTip)] ∧
    (processHands zeroRng [unknownHand] 1000 1000
        { initialState with currentLine := [⟨1, 2⟩] }).lines =
      [{ points := [⟨1, 2⟩], color := "#00FFFF", size := 6, type := Tool.pen }] ∧
    (processHands zeroRng [unknownHand] 1000 1000
        { initialState with currentLine := [⟨1, 2⟩] }).currentLine = [] :=
  ⟨((drawing_rules_amended zeroRng 1000 1000 initialState).1 pinchHand rfl
      classify_pinchHand).1,
   ((drawing_rules_amended zeroRng 1000 1000
        { initialState with currentLine := [⟨1, 2⟩] }).2.1 unknownHand rfl
      (by simp [classify_unknownHand]) (by simp [classify_unknownHand])
      (by simp)).1,
   ((drawing_rules_amended zeroRng 1000 1000
        { initialState with currentLine := [⟨1, 2⟩] }).2.1 unknownHand rfl
      (by simp [classify_unknownHand]) (by simp [classify_unknownHand])
      (by simp)).2⟩

lemma everySecond_length {α : Type} (l : List α) :
    (everySecond l).length = (l.length + 1) / 2 := by
  induction l using everySecond.induct with
  | case1 => simp [everySecond]
  | case2 a => simp [everySecond]
  | case3 a b rest ih => simp [everySecond, ih]; omega

lemma everySecond_subset {α : Type} (l : List α) : ∀ a ∈ everySecond l, a ∈ l := by
  induction l using everySecond.induct with
  | case1 => intro a ha; cases ha
  | case2 a => intro x hx; exact hx
  | case3 a b rest ih =>
    intro x hx
    rw [everySecond] at hx
    rcases List.mem_cons.mp hx with h | h
    · exact h ▸ List.mem_cons_self _ _
    · exact List.mem_cons_of_mem _ (List.mem_cons_of_mem _ (ih x h))

lemma spawnParticles_length (t : Transform) (rho : ℕ → ℝ)
    (l : List (Point × String × ℝ)) : ∀ i : ℕ,
    (spawnParticles t rho i l).length = l.length := by
  induction l with
  | nil => intro i; rfl
  | cons q rest ih => intro i; simp [spawnParticles, ih]

lemma spawnParticles_mem (t : Transform) (rho : ℕ → ℝ)
    (l : List (Point × String × ℝ)) : ∀ (i : ℕ) (p : Particle),
    p ∈ spawnParticles t rho i l →
    ∃ (j : ℕ) (q : Point × String × ℝ), q ∈ l ∧ p = mkParticle t rho j q.1 q.2.1 q.2.2 := by
  induction l with
  | nil => intro i p hp; cases hp
  | cons q rest ih =>
    intro i p hp
    rw [spawnParticles] at hp
    rcases List.mem_cons.mp hp with h | h
    · exact ⟨i, q, List.mem_cons_self _ _, h⟩
    · obtain ⟨j, q2, hq2, he⟩ := ih (i + 1) p h
      exact ⟨j, q2, List.mem_cons_of_mem _ hq2, he⟩

lemma dissolvePool_length (s : AppState) :
    (dissolvePool s).length =
      (s.lines.map fun l => (l.points.length + 1) / 2).sum +
        (s.currentLine.length + 1) / 2 := by
  rw [dissolvePool, List.length_append, List.length_flatten, List.map_map, List.length_map,
    everySecond_length]
  have hf : (List.length ∘ fun l : Stroke => (everySecond l.points).map
      fun p => (p, l.color, l.size)) = fun l : Stroke => (l.points.length + 1) / 2 := by
    funext l
    simp [Function.comp, everySecond_length]
  rw [hf]

lemma dissolvePool_mem (s : AppState) (q : Point × String × ℝ) (hq : q ∈ dissolvePool s) :
    q.1 ∈ (s.lines.map Stroke.points).flatten ∨ q.1 ∈ s.currentLine := by
  rw [dissolvePool] at hq
  rcases List.mem_append.mp hq with h | h
  · left
    rw [List.mem_flatten] at h
    obtain ⟨ll, hll, hmem⟩ := h
    obtain ⟨l, hl, rfl⟩ := List.mem_map.mp hll
    obtain ⟨p0, hp0, rfl⟩ := List.mem_map.mp hmem
    exact List.mem_flatten.mpr ⟨l.points, List.mem_map.mpr ⟨l, hl, rfl⟩,
      everySecond_subset _ _ hp0⟩
  · right
    obtain ⟨p0, hp0, rfl⟩ := List.mem_map.mp h
    exact everySecond_subset _ _ hp0

open Classical in
lemma dissolveDrawing_spec (rho : ℕ → ℝ) (s : AppState)
    (hrho : ∀ n : ℕ, 0 ≤ rho n ∧ rho n < 1) :
    (dissolveDrawing rho s).lines = [] ∧
    (dissolveDrawing rho s).currentLine = [] ∧
    (dissolveDrawing rho s).particles.length = s.particles.length +
      ((s.lines.map fun l => (l.points.length + 1) / 2).sum +
        (s.currentLine.length + 1) / 2) ∧
    ∀ p ∈ (dissolveDrawing rho s).particles, p ∈ s.particles ∨
      (p.life = 1 ∧ -1 ≤ p.vx ∧ p.vx ≤ 1 ∧ 1 ≤ p.vy ∧ p.vy ≤ 3 ∧
       ∃ q : Point × String × ℝ, q ∈ dissolvePool s ∧
         p.x = q.1.x * s.transform.scale + s.transform.offsetX ∧
         p.y = q.1.y * s.transform.scale + s.transform.offsetY ∧ p.color = q.2.1) := by
  rw [dissolveDrawing]
  split
  case isTrue h =>
    obtain ⟨hl, hc⟩ := h
    refine ⟨hl, hc, ?_, fun p hp => Or.inl hp⟩
    simp [hl, hc]
  case isFalse h =>
    refine ⟨rfl, rfl, ?_, ?_⟩
    · have : ({ s with
          particles := s.particles ++ spawnParticles s.transform rho 0 (dissolvePool s)
          lines := ([] : List Stroke)
          currentLine := ([] : List Point) } : AppState).particles =
          s.particles ++ spawnParticles s.transform rho 0 (dissolvePool s) := rfl
      rw [this, List.length_append, spawnParticles_length, dissolvePool_length]
    · intro p hp
      replace hp : p ∈ s.particles ++ spawnParticles s.transform rho 0 (dissolvePool s) := hp
      rcases List.mem_append.mp hp with h1 | h1
      · exact Or.inl h1
      · right
        obtain ⟨j, q, hq, he⟩ := spawnParticles_mem _ _ _ _ _ h1
        subst he
        have hx1 := (hrho (3 * j)).1
        have hx2 := (hrho (3 * j)).2
        have hy1 := (hrho (3 * j + 1)).1
        have hy2 := (hrho (3 * j + 1)).2
        refine ⟨rfl, ?_, ?_, ?_, ?_, q, hq, rfl, rfl, rfl⟩ <;>
          simp only [mkParticle] <;> nlinarith

/-- C3 (amended): a V_SIGN frame with the menu closed dissolves the
drawing: afterwards the stroke list and the active stroke are both
empty, and the number of spawned particles is the sum, over every
finalized stroke plus the active stroke (which such a frame finalizes
first), of the ceiling of half that stroke's point count — each stroke
is sampled at its even indices separately. Every spawned particle has
life 1, horizontal velocity in the interval from -1 to 1, vertical
velocity in the interval from 1 to 3, and a screen position obtained
by applying the current transform to one of the stored world-space
stroke points. -/
theorem dissolve_amended (rho : ℕ → ℝ) (hand : Hand) (width height : ℝ) (s : AppState)
    (hrho : ∀ n : ℕ, 0 ≤ rho n ∧ rho n < 1)
    (hmenu : s.isMenuOpen = false)
    (hg : classifySingleHand hand width height = HandGesture.V_SIGN) :
    (processHands rho [hand] width height s).lines = [] ∧
    (processHands rho [hand] width height s).currentLine = [] ∧
    (processHands rho [hand] width height s).particles.length = s.particles.length +
      ((s.lines.map fun l => (l.points.length + 1) / 2).sum +
        (s.currentLine.length + 1) / 2) ∧
    ∀ p ∈ (processHands rho [hand] width height s).particles, p ∈ s.particles ∨
      (p.life = 1 ∧ -1 ≤ p.vx ∧ p.vx ≤ 1 ∧ 1 ≤ p.vy ∧ p.vy ≤ 3 ∧
       ∃ q : Point, p.x = q.x * s.transform.scale + s.transform.offsetX ∧
         p.y = q.y * s.transform.scale + s.transform.offsetY ∧
         (q ∈ (s.lines.map Stroke.points).flatten ∨ q ∈ s.currentLine)) := by
  rw [classifySingleHand] at hg
  rw [show processHands rho [hand] width height s =
      processSingleHand rho hand width height s from rfl,
    processSingleHand_vsign rho hand width height s hmenu hg]
  by_cases hc : s.currentLine = []
  · rw [if_neg (fun hne => hne hc)]
    obtain ⟨e1, e2, e3, e4⟩ := dissolveDrawing_spec rho
      { s with prevPinchDistance := none, currentGesture := HandGesture.V_SIGN,
               menuCursor := none } hrho
    refine ⟨e1, e2, ?_, ?_⟩
    · rw [e3]
    · intro p hp
      rcases e4 p hp with h | h
      · exact Or.inl h
      · right
        obtain ⟨hlife, h1, h2, h3, h4, q, hq, hx, hy, hcol⟩ := h
        have hm := dissolvePool_mem _ q hq
        exact ⟨hlife, h1, h2, h3, h4, q.1, hx, hy, hm⟩
  · rw [if_pos hc]
    obtain ⟨e1, e2, e3, e4⟩ := dissolveDrawing_spec rho
      { s with prevPinchDistance := none, currentGesture := HandGesture.V_SIGN,
               menuCursor := none,
               lines := s.lines ++
                 [{ points := s.currentLine, color := s.settings.color,
                    size := s.settings.size, type := s.settings.tool }],
               currentLine := [] } hrho
    refine ⟨e1, e2, ?_, ?_⟩
    · rw [e3]
      simp [List.map_append, List.sum_append]
    · intro p hp
      rcases e4 p hp with h | h
      · exact Or.inl h
      · right
        obtain ⟨hlife, h1, h2, h3, h4, q, hq, hx, hy, hcol⟩ := h
        have hm := dissolvePool_mem _ q hq
        refine ⟨hlife, h1, h2, h3, h4, q.1, hx, hy, ?_⟩
        replace hm : q.1 ∈ ((s.lines ++
            [({ points := s.currentLine, color := s.settings.color,
                size := s.settings.size, type := s.settings.tool } : Stroke)]).map
              Stroke.points).flatten ∨ q.1 ∈ ([] : List Point) := hm
        rcases hm with hm | hm
        · rw [List.map_append, List.flatten_append] at hm
          rcases List.mem_append.mp hm with hm2 | hm2
          · exact Or.inl hm2
          · right
            simpa using hm2
        · cases hm

/-- C3 counterexample: dissolving a state with two finalized three-point
strokes spawns four particles (each stroke contributes its two even
indices separately), while the ceiling of half the total point count,
six, predicts three. -/
theorem dissolve_count_counterexample :
    (processHands zeroRng [vsignHand] 1000 1000 cexState).particles.length = 4 ∧
    ((cexState.lines.map fun l => l.points.length).sum +
        cexState.currentLine.length + 1) / 2 = 3 := by
  constructor
  · rw [show processHands zeroRng [vsignHand] 1000 1000 cexState =
        processSingleHand zeroRng vsignHand 1000 1000 cexState from rfl,
      processSingleHand_vsign zeroRng vsignHand 1000 1000 cexState rfl
        classifyScreen_vsignHand,
      if_neg (fun hne => hne rfl)]
    obtain ⟨-, -, e3, -⟩ := dissolveDrawing_spec zeroRng
      { cexState with prevPinchDistance := none, currentGesture := HandGesture.V_SIGN,
                       menuCursor := none } (fun n => by norm_num [zeroRng])
    rw [e3]
    norm_num [cexState, cexStroke, initialState]
  · norm_num [cexState, cexStroke, initialState]

theorem dissolve_amended_witness :
    (processHands zeroRng [vsignHand] 1000 1000 cexState).lines = [] ∧
    (processHands zeroRng [vsignHand] 1000 1000 cexState).currentLine = [] ∧
    (processHands zeroRng [vsignHand] 1000 1000 cexState).particles.length =
      cexState.particles.length +
        ((cexState.lines.map fun l => (l.points.length + 1) / 2).sum +
          (cexState.currentLine.length + 1) / 2) := by
  obtain ⟨h1, h2, h3, -⟩ := dissolve_amended zeroRng vsignHand 1000 1000 cexState
    (fun n => by norm_num [zeroRng]) rfl classify_vsignHand
  exact ⟨h1, h2, h3⟩

/-- C10: for every reachable state of the frame loop, the screen-to-world
and world-to-screen conversions are mutually inverse: the scale is
always in the clamped range, hence nonzero, so both composites are the
identity on every point. -/
theorem transform_roundtrip (evs : List FrameEvent) (p : Point) :
    toScreenPoint (runEvents evs).transform (toWorldPoint (runEvents evs).transform p) = p ∧
    toWorldPoint (runEvents evs).transform (toScreenPoint (runEvents evs).transform p) = p := by
  have hs := runEvents_scale_bounds evs
  have hne : (runEvents evs).transform.scale ≠ 0 := by
    have h05 : (0 : ℝ) < 0.5 := by norm_num
    exact ne_of_gt (lt_of_lt_of_le h05 hs.1)
  constructor <;> (ext <;> simp [toScreenPoint, toWorldPoint] <;> field_simp)

lemma tickParticle_life (p : Particle) : (tickParticle p).life = p.life - 0.01 := rfl

lemma iterate_tickParticle_life (p : Particle) (k : ℕ) :
    (tickParticle^[k] p).life = p.life - k * 0.01 := by
  induction k with
  | zero => simp
  | succ n ih =>
    rw [Function.iterate_succ_apply', tickParticle_life, ih]
    push_cast
    ring

lemma particleAlive_mono (a : Particle) (h : particleAlive (tickParticle a) = true) :
    particleAlive a = true := by
  rw [particleAlive, decide_eq_true_eq] at h ⊢
  rw [tickParticle_life] at h
  linarith

lemma particleAlive_and (a : Particle) :
    (particleAlive (tickParticle a) && particleAlive a) = particleAlive (tickParticle a) := by
  cases h : particleAlive (tickParticle a)
  · simp
  · simp [particleAlive_mono a h]

lemma tickParticles_iterate (k : ℕ) (ps : List Particle) :
    tickParticles^[k + 1] ps = (ps.map (tickParticle^[k + 1])).filter particleAlive := by
  induction k generalizing ps with
  | zero => rw [Function.iterate_one, Function.iterate_one, tickParticles]
  | succ n ih =>
    rw [Function.iterate_succ_apply', ih, tickParticles, List.filter_map,
      List.filter_filter]
    have hcong : ∀ a ∈ ps.map (tickParticle^[n + 1]),
        ((particleAlive ∘ tickParticle) a && particleAlive a) =
          (particleAlive ∘ tickParticle) a := fun a _ => particleAlive_and a
    rw [List.filter_congr hcong, ← List.filter_map, List.map_map,
      ← Function.iterate_succ']

lemma tickParticles_length_le (ps : List Particle) :
    (tickParticles ps).length ≤ ps.length := by
  rw [tickParticles]
  calc ((ps.map tickParticle).filter particleAlive).length
      ≤ (ps.map tickParticle).length := List.length_filter_le _ _
    _ = ps.length := List.length_map _ _

/-- C9: one particle tick advances the position by the velocity, adds
0.05 of gravity to the vertical velocity and decrements life by
exactly 0.01, so after k ticks a particle's life is its initial life
minus 0.01 k; the live set never grows on a tick; a particle spawned
with life 1 is still in the live set after 99 ticks, with positive
life, and after the 100th tick the live set of any batch spawned with
life at most 1 is empty — each particle dies after exactly 100 ticks
and is never resurrected. -/
theorem particle_lifecycle :
    (∀ p : Particle, (tickParticle p).x = p.x + p.vx ∧ (tickParticle p).y = p.y + p.vy ∧
      (tickParticle p).vy = p.vy + 0.05 ∧ (tickParticle p).life = p.life - 0.01) ∧
    (∀ (p : Particle) (k : ℕ), (tickParticle^[k] p).life = p.life - k * 0.01) ∧
    (∀ ps : List Particle, (tickParticles ps).length ≤ ps.length) ∧
    (∀ ps : List Particle, ∀ p ∈ ps, p.life = 1 →
      tickParticle^[99] p ∈ tickParticles^[99] ps ∧ (tickParticle^[99] p).life > 0) ∧
    (∀ ps : List Particle, (∀ p ∈ ps, p.life ≤ 1) → tickParticles^[100] ps = []) := by
  refine ⟨fun p => ⟨rfl, rfl, rfl, rfl⟩, iterate_tickParticle_life, tickParticles_length_le,
    ?_, ?_⟩
  · intro ps p hp hlife
    constructor
    · rw [show (99 : ℕ) = 98 + 1 from rfl, tickParticles_iterate 98 ps]
      refine List.mem_filter.mpr ⟨List.mem_map_of_mem _ hp, ?_⟩
      rw [particleAlive, decide_eq_true_eq, iterate_tickParticle_life, hlife]
      norm_num
    · rw [iterate_tickParticle_life, hlife]
      norm_num
  · intro ps hps
    rw [show (100 : ℕ) = 99 + 1 from rfl, tickParticles_iterate 99 ps]
    refine List.filter_eq_nil_iff.mpr ?_
    intro a ha
    obtain ⟨p, hp, rfl⟩ := List.mem_map.mp ha
    have hle := hps p hp
    rw [particleAlive, decide_eq_true_eq, iterate_tickParticle_life]
    intro hgt
    push_cast at hgt
    linarith

theorem particle_lifecycle_witness :
    (tickParticle^[99] testParticle ∈ tickParticles^[99] [testParticle] ∧
      (tickParticle^[99] testParticle).life > 0) ∧
    tickParticles^[100] [testParticle] = [] :=
  ⟨particle_lifecycle.2.2.2.1 [testParticle] testParticle (List.mem_singleton.mpr rfl) rfl,
   particle_lifecycle.2.2.2.2 [testParticle]
     (fun p hp => by rw [List.mem_singleton.mp hp]; norm_num [testParticle])⟩

/-- C1, evaluated at the failing input: one region (type tool, value
pen, bounding box from 0 to 100 in both axes) is registered; the
cursor enters it at time 0, which arms an 800 ms dwell timer; up to
time 799 no selection has fired; but when the menu closes at time 100
(the cursor disappearing with it), the hit-testing effect returns
early without cancelling the timer and has no cleanup, so the
selection (tool, pen) still fires at time 800, after the menu was
closed. -/
theorem dwell_fires_after_menu_close :
    (dwellRun [⟨"tool", "pen", 0, 100, 0, 100⟩]
        [⟨0, true, some ⟨50, 50⟩⟩] 799).2 = [] ∧
    (dwellRun [⟨"tool", "pen", 0, 100, 0, 100⟩]
        [⟨0, true, some ⟨50, 50⟩⟩, ⟨100, false, none⟩] 2000).2 =
      [("tool", "pen", 800)] := by
  constructor <;> rfl
